import Mathlib

/-!
Verification of the Projet-STS transit coordination managers.

The three Python classes under src/src/projects/project_1/core are embedded
shallowly:

- MutexSyncManager (mutex_sync.py): account balances and passenger-list moves.
- SemaphoreSyncManager (semaphore_sync.py): capacity semaphores and the FIFO
  stop-admission queue.
- ConditionSyncManager (condition_sync.py): boarding, alighting and transfer
  flags guarded by condition variables.

Python dictionaries are embedded as association lists over natural-number
keys, with dictionary assignment updating the first matching key in place and
appending fresh keys at the end, which matches insertion-ordered dictionary
semantics with unique keys. Monetary amounts are embedded as rationals; every
amount appearing in the code and in the claims, namely 3.50, 45, 3.0, 1.0 and
0.5, is a dyadic rational on which Python float arithmetic is exact, so the
rational embedding agrees with the source on all values of interest. Locks,
condition variables and semaphore wait-queues carry no data; a blocking
acquire with a timeout is given its sequential semantics: it succeeds exactly
when the counter is positive, since with no concurrent release the timeout
expires otherwise. The metrics recorder and console printing are observational
only and are omitted.
-/

namespace STS

/-- Dictionary lookup on an association list, first matching key wins. -/
def lookupA {α : Type} : List (Nat × α) → Nat → Option α
  | [], _ => none
  | (k, v) :: rest, key => if k = key then some v else lookupA rest key

/-- Dictionary assignment: replace the value at the first matching key,
append a fresh binding at the end when the key is absent. -/
def insertA {α : Type} : List (Nat × α) → Nat → α → List (Nat × α)
  | [], key, v => [(key, v)]
  | (k, w) :: rest, key, v =>
      if k = key then (k, v) :: rest else (k, w) :: insertA rest key v

/-- Dictionary deletion of the first matching key (keys are unique in every
state built by the managers, so this is Python del). -/
def eraseA {α : Type} : List (Nat × α) → Nat → List (Nat × α)
  | [], _ => []
  | (k, w) :: rest, key => if k = key then rest else (k, w) :: eraseA rest key

/-- Adding a key to a key set (a dictionary whose values are synchronization
handles, or a Python set): no duplicates are ever created. -/
def insertKey (l : List Nat) (k : Nat) : List Nat :=
  if k ∈ l then l else l ++ [k]

/-- Python set.discard: remove the element when present. -/
def discardKey (l : List Nat) (k : Nat) : List Nat :=
  l.filter (fun x => x ≠ k)

/-! ## MutexSyncManager (mutex_sync.py)

State: card_locks (per-account mutexes, embedded by their key set),
card_balances (account id to balance), stop_locks (per-stop mutexes,
embedded by their key set). -/

structure MutexState where
  card_locks : List Nat
  card_balances : List (Nat × ℚ)
  stop_locks : List Nat
deriving DecidableEq, Repr

/-- pay_fare (mutex_sync.py lines 59-85): fails for an unknown passenger;
under the account lock deducts the amount and succeeds exactly when the
balance is at least the amount. The balance read raises KeyError when the
account has a lock but no balance entry; that state is unreachable because
the two maps are always populated with the same keys, and the embedding
returns failure there. -/
def pay_fare (st : MutexState) (passenger_id : Nat) (amount : ℚ) :
    Bool × MutexState :=
  if passenger_id ∈ st.card_locks then
    match lookupA st.card_balances passenger_id with
    | some b =>
        if amount ≤ b then
          (true, { st with
            card_balances := insertA st.card_balances passenger_id (b - amount) })
        else (false, st)
    | none => (false, st)
  else (false, st)

/-- recharge_card (mutex_sync.py lines 88-117): fails for an unknown
passenger or a non-positive amount; otherwise adds the amount under the
account lock. -/
def recharge_card (st : MutexState) (passenger_id : Nat) (amount : ℚ) :
    Bool × MutexState :=
  if passenger_id ∈ st.card_locks then
    if amount ≤ 0 then (false, st)
    else
      match lookupA st.card_balances passenger_id with
      | some b =>
          (true, { st with
            card_balances := insertA st.card_balances passenger_id (b + amount) })
      | none => (false, st)
  else (false, st)

/-- buy_monthly (mutex_sync.py lines 151-175): fails for an unknown
passenger; otherwise deducts the fixed price 45 under the account lock with
no sufficient-funds check and returns true. -/
def buy_monthly (st : MutexState) (passenger_id : Nat) : Bool × MutexState :=
  if passenger_id ∈ st.card_locks then
    match lookupA st.card_balances passenger_id with
    | some b =>
        (true, { st with
          card_balances := insertA st.card_balances passenger_id (b - 45) })
    | none => (false, st)
  else (false, st)

/-- The domain bus object used by board_passengers: capacity and the current
passenger list (list of passenger identifiers). -/
structure DBus where
  capacity : Nat
  passenger_list : List Nat
deriving DecidableEq, Repr

/-- The domain stop object used by board_passengers: its identifier (the key
under which its lock is stored) and the list of waiting passengers. -/
structure DStop where
  sid : Nat
  passenger_list : List Nat
deriving DecidableEq, Repr

/-- Modelled from the spec: Bus.can_accept_passengers lives in the domain
model, which is not under src. Per spec section 4.2 board_passengers rejects
outright when the bus cannot accept the current waiting count of the stop,
and section 3 gives the invariant that the passenger count of a bus never
exceeds its capacity; so the bus can accept n more passengers exactly when
its current count plus n stays within capacity. -/
def DBus.can_accept_passengers (b : DBus) (n : Nat) : Bool :=
  b.passenger_list.length + n ≤ b.capacity

/-- The boarding loop of board_passengers (mutex_sync.py lines 204-211):
iterates over the snapshot of the waiting list taken before any mutation; a
passenger whose pay_fare succeeds is appended to the bus list and removed
(first occurrence) from the stop list. Returns the ledger state, the stop
list, the bus list and the boarded flag. -/
def board_loop : List Nat → MutexState → List Nat → List Nat → Bool →
    MutexState × List Nat × List Nat × Bool
  | [], st, sl, bl, boarded => (st, sl, bl, boarded)
  | p :: rest, st, sl, bl, boarded =>
      let r := pay_fare st p (7/2)
      if r.1 then board_loop rest r.2 (sl.erase p) (bl ++ [p]) true
      else board_loop rest r.2 sl bl boarded

/-- board_passengers (mutex_sync.py lines 179-220). The membership test of
the stop object in the lock dictionary resolves through the domain model
equality of stops, which is not under src; modelled from the spec, a known
stop is one whose identifier carries a lock. Rejects when the bus cannot
accept the current waiting count, otherwise runs the boarding loop over a
snapshot of the waiting list and returns true exactly when someone boarded. -/
def board_passengers (st : MutexState) (stop : DStop) (bus : DBus) :
    Bool × MutexState × DStop × DBus :=
  if stop.sid ∈ st.stop_locks then
    if bus.can_accept_passengers stop.passenger_list.length then
      let r := board_loop stop.passenger_list st stop.passenger_list
        bus.passenger_list false
      (r.2.2.2, r.1, { stop with passenger_list := r.2.1 },
        { bus with passenger_list := r.2.2.1 })
    else (false, st, stop, bus)
  else (false, st, stop, bus)

/-- Whether pay_fare of the fixed fare 7/2 would succeed for this passenger
in this ledger state: the account is known and its balance is at least the
fare. Used to characterize which passengers the boarding loop moves. -/
def will_pay (st : MutexState) (p : Nat) : Bool :=
  if p ∈ st.card_locks then
    match lookupA st.card_balances p with
    | some b => decide ((7/2 : ℚ) ≤ b)
    | none => false
  else false

/-! ## SemaphoreSyncManager (semaphore_sync.py)

State: bus_capacity_semaphores (bus id to semaphore counter, initialized to
the bus capacity), stop_semaphores (stop id to admission counter,
initialized to 2), stop_queues (stop id to FIFO list of queued bus ids),
stop_locks (key set of the per-stop queue locks). -/

structure SemState where
  bus_capacity_semaphores : List (Nat × Nat)
  stop_semaphores : List (Nat × Nat)
  stop_queues : List (Nat × List Nat)
  stop_locks : List Nat
deriving DecidableEq, Repr

/-- board_passenger (semaphore_sync.py lines 78-124): fails for an unknown
bus; otherwise acquires the capacity semaphore of the bus with a timeout.
Sequential semantics of the timed acquire: succeeds exactly when the counter
is positive, otherwise the timeout expires and the call reports failure. -/
def board_passenger (st : SemState) (bus_id passenger_id : Nat) :
    Bool × SemState :=
  match lookupA st.bus_capacity_semaphores bus_id with
  | none => (false, st)
  | some c =>
      if 0 < c then
        (true, { st with
          bus_capacity_semaphores :=
            insertA st.bus_capacity_semaphores bus_id (c - 1) })
      else (false, st)

/-- alight_passenger (semaphore_sync.py lines 127-161): fails for an unknown
bus; otherwise releases the capacity semaphore unconditionally and returns
true. -/
def alight_passenger (st : SemState) (bus_id passenger_id : Nat) :
    Bool × SemState :=
  match lookupA st.bus_capacity_semaphores bus_id with
  | none => (false, st)
  | some c =>
      (true, { st with
        bus_capacity_semaphores :=
          insertA st.bus_capacity_semaphores bus_id (c + 1) })

/-- One call against the capacity gate of a fixed bus: a board attempt or an
alight, each with the acting passenger id. -/
inductive SemEvent where
  | board (p : Nat)
  | alight (p : Nat)
deriving DecidableEq, Repr

/-- Runs a sequence of board_passenger and alight_passenger calls on one bus
and counts the successful boards and the successful alights. -/
def runEvents (bus_id : Nat) : List SemEvent → SemState → SemState × Nat × Nat
  | [], st => (st, 0, 0)
  | SemEvent.board p :: rest, st =>
      let r := board_passenger st bus_id p
      let t := runEvents bus_id rest r.2
      (t.1, (if r.1 then 1 else 0) + t.2.1, t.2.2)
  | SemEvent.alight p :: rest, st =>
      let r := alight_passenger st bus_id p
      let t := runEvents bus_id rest r.2
      (t.1, t.2.1, (if r.1 then 1 else 0) + t.2.2)

/-- The timeout branch of bus_arrive_at_stop (semaphore_sync.py lines
209-211): remove the bus from the queue only when present, and only its
first occurrence (Python list.remove). -/
def timeout_remove (q : List Nat) (bus_id : Nat) : List Nat :=
  if bus_id ∈ q then q.erase bus_id else q

/-- Store a new queue value for a stop. -/
def queue_update (st : SemState) (stop_id : Nat) (q : List Nat) : SemState :=
  { st with stop_queues := insertA st.stop_queues stop_id q }

/-- The polling loop of bus_arrive_at_stop (semaphore_sync.py lines
184-212), sequential semantics: fuel counts the remaining poll iterations
before the deadline passes; at fuel zero the wall clock has reached the
deadline and the timeout branch runs. Each iteration admits the bus exactly
when it is at the head of the queue and the admission semaphore is
acquirable without blocking. -/
def bus_arrive_loop (st : SemState) (bus_id stop_id : Nat) :
    Nat → Bool × SemState
  | 0 =>
      let q := (lookupA st.stop_queues stop_id).getD []
      (false, queue_update st stop_id (timeout_remove q bus_id))
  | fuel + 1 =>
      let q := (lookupA st.stop_queues stop_id).getD []
      if q.head? = some bus_id then
        match lookupA st.stop_semaphores stop_id with
        | some c =>
            if 0 < c then
              (true, { queue_update st stop_id q.tail with
                stop_semaphores := insertA st.stop_semaphores stop_id (c - 1) })
            else bus_arrive_loop st bus_id stop_id fuel
        | none => bus_arrive_loop st bus_id stop_id fuel
      else bus_arrive_loop st bus_id stop_id fuel

/-- bus_arrive_at_stop (semaphore_sync.py lines 164-220): fails for an
unknown stop; otherwise appends the bus at the tail of the admission queue
and enters the polling loop. -/
def bus_arrive_at_stop (st : SemState) (bus_id stop_id : Nat) (fuel : Nat) :
    Bool × SemState :=
  if (lookupA st.stop_semaphores stop_id).isSome then
    let q := (lookupA st.stop_queues stop_id).getD []
    bus_arrive_loop (queue_update st stop_id (q ++ [bus_id])) bus_id stop_id fuel
  else (false, st)

/-! ## ConditionSyncManager (condition_sync.py)

State: the condition dictionaries are embedded by their key sets (the
condition objects carry no data), the transfer condition by the flag that it
was created, and the shared maps as association lists. The threads attribute
is an Option: none means the attribute was never assigned, so reading it
raises AttributeError; it is only assigned by run_scenarios. The stop_signal
attribute is likewise only assigned by initialize. -/

structure CondState where
  stop_conditions : List Nat
  bus_conditions : List Nat
  transfer_condition : Bool
  bus_at_stop : List (Nat × List Nat)
  boarding_complete : List (Nat × Bool)
  alighting_complete : List (Nat × Bool)
  transfers_in_progress : List (Nat × (Nat × Nat))
  stop_signal : Option Bool
  threads : Option Nat
deriving DecidableEq, Repr

/-- The constructor of ConditionSyncManager (condition_sync.py lines 19-33):
empty maps, no transfer condition, and neither stop_signal nor threads
assigned. -/
def condInit : CondState :=
  { stop_conditions := [], bus_conditions := [], transfer_condition := false,
    bus_at_stop := [], boarding_complete := [], alighting_complete := [],
    transfers_in_progress := [], stop_signal := none, threads := none }

/-- The seed supplies the bus and stop identifiers. -/
structure Seed where
  buses : List Nat
  stops : List Nat
deriving DecidableEq, Repr

/-- Embeds ConditionSyncManager.initialize (condition_sync.py lines 35-75);
the embedding avoids that reserved name. With no seed the body reads
undefined locals and the except clause returns false, after the transfer
condition was already created. With a seed it creates the per-stop and
per-bus conditions and flags (the per-bus loop appears twice in the source
and the second pass overwrites the first with identical values), then clears
the stop signal and returns true. -/
def condSetup (st : CondState) (seed : Option Seed) : Bool × CondState :=
  match seed with
  | none => (false, { st with transfer_condition := true })
  | some sd =>
      let afterStops := sd.stops.foldl
        (fun s sid =>
          { s with stop_conditions := insertKey s.stop_conditions sid,
                   bus_at_stop := insertA s.bus_at_stop sid [] })
        { st with transfer_condition := true }
      let busPass := fun (s0 : CondState) => sd.buses.foldl
        (fun s bid =>
          { s with bus_conditions := insertKey s.bus_conditions bid,
                   boarding_complete := insertA s.boarding_complete bid false,
                   alighting_complete := insertA s.alighting_complete bid false })
        s0
      (true, { busPass (busPass afterStops) with stop_signal := some false })

/-- cleanup (condition_sync.py lines 725-742): clears the condition maps and
the shared maps, then iterates self.threads. When the threads attribute was
never assigned (run_scenarios was not called) that access raises
AttributeError after the maps were already cleared; the second component
records whether the exception was raised. -/
def condCleanup (st : CondState) : CondState × Bool :=
  let cleared := { st with
    stop_conditions := [], bus_conditions := [], transfer_condition := false,
    bus_at_stop := [], boarding_complete := [], alighting_complete := [],
    transfers_in_progress := [] }
  match st.threads with
  | none => (cleared, true)
  | some _ => ({ cleared with threads := some 0, stop_signal := some false }, false)

/-- notify_bus_arrival (condition_sync.py lines 133-164): fails for an
unknown stop, otherwise adds the bus to the present-set of the stop and
notifies all waiters. -/
def notify_bus_arrival (st : CondState) (bus_id stop_id : Nat) :
    Bool × CondState :=
  if stop_id ∈ st.stop_conditions then
    let s := (lookupA st.bus_at_stop stop_id).getD []
    (true, { st with bus_at_stop := insertA st.bus_at_stop stop_id (insertKey s bus_id) })
  else (false, st)

/-- notify_bus_departure (condition_sync.py lines 166-197): fails for an
unknown stop, otherwise discards the bus from the present-set of the stop
and notifies all waiters. -/
def notify_bus_departure (st : CondState) (bus_id stop_id : Nat) :
    Bool × CondState :=
  if stop_id ∈ st.stop_conditions then
    let s := (lookupA st.bus_at_stop stop_id).getD []
    (true, { st with bus_at_stop := insertA st.bus_at_stop stop_id (discardKey s bus_id) })
  else (false, st)

/-- start_boarding (condition_sync.py lines 199-228): fails for an unknown
bus; fails when the boarding-complete flag is already true; otherwise writes
false into the flag (boarding in progress) and succeeds. The flag read
defaults to false for a bus missing from the flag map, a state the manager
never builds. -/
def start_boarding (st : CondState) (bus_id stop_id : Nat) : Bool × CondState :=
  if bus_id ∈ st.bus_conditions then
    if (lookupA st.boarding_complete bus_id).getD false then (false, st)
    else (true, { st with boarding_complete := insertA st.boarding_complete bus_id false })
  else (false, st)

/-- complete_boarding (condition_sync.py lines 231-259): fails for an
unknown bus; otherwise sets the boarding-complete flag to true, notifies,
and succeeds. -/
def complete_boarding (st : CondState) (bus_id : Nat) : Bool × CondState :=
  if bus_id ∈ st.bus_conditions then
    (true, { st with boarding_complete := insertA st.boarding_complete bus_id true })
  else (false, st)

/-- start_alighting (condition_sync.py lines 311-345): fails for an unknown
bus; fails when the alighting-complete flag is NOT true (the check reads
`if not self.alighting_complete[bus_id]`); otherwise writes false into the
flag and succeeds. Note the polarity is inverted relative to
start_boarding. -/
def start_alighting (st : CondState) (bus_id stop_id : Nat) : Bool × CondState :=
  if bus_id ∈ st.bus_conditions then
    if !((lookupA st.alighting_complete bus_id).getD false) then (false, st)
    else (true, { st with alighting_complete := insertA st.alighting_complete bus_id false })
  else (false, st)

/-- complete_alighting (condition_sync.py lines 348-378): fails for an
unknown bus; otherwise sets the alighting-complete flag to true, notifies,
and succeeds. -/
def complete_alighting (st : CondState) (bus_id : Nat) : Bool × CondState :=
  if bus_id ∈ st.bus_conditions then
    (true, { st with alighting_complete := insertA st.alighting_complete bus_id true })
  else (false, st)

/-- start_transfer (condition_sync.py lines 431-467): fails when either bus
is unknown; fails when a transfer for this passenger is already pending;
otherwise records the (from, to) pair under the passenger key and
succeeds. -/
def start_transfer (st : CondState) (passenger_id from_bus_id to_bus_id : Nat) :
    Bool × CondState :=
  if from_bus_id ∈ st.bus_conditions ∧ to_bus_id ∈ st.bus_conditions then
    match lookupA st.transfers_in_progress passenger_id with
    | some _ => (false, st)
    | none =>
        let m := insertA st.transfers_in_progress passenger_id (from_bus_id, to_bus_id)
        (true, { st with transfers_in_progress := m })
  else (false, st)

/-- complete_transfer (condition_sync.py lines 471-511): fails when either
bus is unknown; fails when no transfer is pending for this passenger; fails
when the recorded pair differs from (from, to); otherwise deletes the entry
and succeeds. -/
def complete_transfer (st : CondState) (passenger_id from_bus_id to_bus_id : Nat) :
    Bool × CondState :=
  if from_bus_id ∈ st.bus_conditions ∧ to_bus_id ∈ st.bus_conditions then
    match lookupA st.transfers_in_progress passenger_id with
    | none => (false, st)
    | some pr =>
        if pr = (from_bus_id, to_bus_id) then
          let m := eraseA st.transfers_in_progress passenger_id
          (true, { st with transfers_in_progress := m })
        else (false, st)
  else (false, st)

/-- The state-mutating public operations of ConditionSyncManager. The timed
wait operations only read the shared maps (their writes touch nothing but
the metrics recorder), so they are not listed. -/
inductive CondOp where
  | arrival (bus_id stop_id : Nat)
  | departure (bus_id stop_id : Nat)
  | startBoard (bus_id stop_id : Nat)
  | completeBoard (bus_id : Nat)
  | startAlight (bus_id stop_id : Nat)
  | completeAlight (bus_id : Nat)
  | startTrans (p f t : Nat)
  | completeTrans (p f t : Nat)
  | clean
deriving DecidableEq, Repr

/-- Apply one operation to the state, discarding the returned boolean. -/
def applyOp (st : CondState) : CondOp → CondState
  | CondOp.arrival b s => (notify_bus_arrival st b s).2
  | CondOp.departure b s => (notify_bus_departure st b s).2
  | CondOp.startBoard b s => (start_boarding st b s).2
  | CondOp.completeBoard b => (complete_boarding st b).2
  | CondOp.startAlight b s => (start_alighting st b s).2
  | CondOp.completeAlight b => (complete_alighting st b).2
  | CondOp.startTrans p f t => (start_transfer st p f t).2
  | CondOp.completeTrans p f t => (complete_transfer st p f t).2
  | CondOp.clean => (condCleanup st).1

/-- Apply a sequence of operations from left to right. -/
def applyOps (st : CondState) : List CondOp → CondState
  | [] => st
  | op :: rest => applyOps (applyOp st op) rest

/-! ## Concrete example states used by witnesses and counterexamples -/

/-- One account, identifier 1, balance 3, no stops. -/
def mutexDemo : MutexState :=
  { card_locks := [1], card_balances := [(1, 3)], stop_locks := [] }

/-- A ledger with three accounts and one stop lock, exercising
board_passengers: account 1 can pay the fare, account 2 cannot, passenger 3
has no account. -/
def mutexBoardDemo : MutexState :=
  { card_locks := [1, 2], card_balances := [(1, 10), (2, 1)], stop_locks := [7] }

/-- A condition manager freshly built and set up with buses 1 and 2 and
stop 3. -/
def condDemo : CondState := (condSetup condInit (some ⟨[1, 2], [3]⟩)).2

/-- condDemo after start_transfer of passenger 5 from bus 1 to bus 2. -/
def condDemoT : CondState := (start_transfer condDemo 5 1 2).2

/-- A semaphore manager with bus 1 at capacity 2, stop 4 with admission
count 0 and an empty queue. -/
def semDemo : SemState :=
  { bus_capacity_semaphores := [(1, 2)], stop_semaphores := [(4, 0)],
    stop_queues := [(4, [])], stop_locks := [4] }

/-- A bus is boarding-locked when it is unknown to the manager or its
boarding-complete flag is set: exactly the states in which start_boarding
rejects. -/
def BoardingLocked (st : CondState) (bus_id : Nat) : Prop :=
  bus_id ∉ st.bus_conditions ∨ lookupA st.boarding_complete bus_id = some true

/-! ## Association list lemmas -/

@[simp] theorem lookupA_insertA_self {α : Type} (m : List (Nat × α)) (k : Nat) (v : α) :
    lookupA (insertA m k v) k = some v := by
  induction m with
  | nil => simp [insertA, lookupA]
  | cons hd tl ih =>
      obtain ⟨k0, v0⟩ := hd
      by_cases h : k0 = k
      · simp [insertA, lookupA, h]
      · simp [insertA, lookupA, h, ih]

theorem lookupA_insertA_ne {α : Type} (m : List (Nat × α)) (k k' : Nat) (v : α)
    (h : k ≠ k') : lookupA (insertA m k v) k' = lookupA m k' := by
  induction m with
  | nil => simp [insertA, lookupA, h]
  | cons hd tl ih =>
      obtain ⟨k0, v0⟩ := hd
      by_cases h0 : k0 = k
      · subst h0
        simp [insertA, lookupA, h]
      · simp [insertA, lookupA, h0, ih]

theorem insertA_insertA_self {α : Type} (m : List (Nat × α)) (k : Nat) (v w : α) :
    insertA (insertA m k v) k w = insertA m k w := by
  induction m with
  | nil => simp [insertA]
  | cons hd tl ih =>
      obtain ⟨k0, v0⟩ := hd
      by_cases h : k0 = k
      · simp [insertA, h]
      · simp [insertA, h, ih]

theorem lookupA_eq_none_of_not_mem {α : Type} (m : List (Nat × α)) (k : Nat)
    (h : k ∉ m.map Prod.fst) : lookupA m k = none := by
  induction m with
  | nil => simp [lookupA]
  | cons hd tl ih =>
      obtain ⟨k0, v0⟩ := hd
      simp only [List.map_cons, List.mem_cons] at h
      push_neg at h
      have hne : ¬ k0 = k := fun hh => h.1 (Eq.symm hh)
      simp only [lookupA, if_neg hne]
      exact ih h.2

theorem lookupA_eraseA_self {α : Type} (m : List (Nat × α)) (k : Nat)
    (hnd : (m.map Prod.fst).Nodup) : lookupA (eraseA m k) k = none := by
  induction m with
  | nil => simp [eraseA, lookupA]
  | cons hd tl ih =>
      obtain ⟨k0, v0⟩ := hd
      simp only [List.map_cons, List.nodup_cons] at hnd
      by_cases h : k0 = k
      · subst h
        simp only [eraseA, if_pos rfl]
        exact lookupA_eq_none_of_not_mem tl k0 hnd.1
      · simp only [eraseA, if_neg h, lookupA, if_neg h]
        exact ih hnd.2

theorem insertA_keys {α : Type} (m : List (Nat × α)) (k : Nat) (v : α) :
    (insertA m k v).map Prod.fst =
      if k ∈ m.map Prod.fst then m.map Prod.fst
      else m.map Prod.fst ++ [k] := by
  induction m with
  | nil => simp [insertA]
  | cons hd tl ih =>
      obtain ⟨k0, v0⟩ := hd
      by_cases h : k0 = k
      · subst h
        simp [insertA]
      · have hne : ¬ k = k0 := fun hh => h (Eq.symm hh)
        by_cases h2 : k ∈ tl.map Prod.fst
        · simp [insertA, h, ih, h2, hne]
        · simp [insertA, h, ih, h2, hne]

theorem insertA_keys_nodup {α : Type} (m : List (Nat × α)) (k : Nat) (v : α)
    (hnd : (m.map Prod.fst).Nodup) :
    ((insertA m k v).map Prod.fst).Nodup := by
  rw [insertA_keys]
  by_cases hk : k ∈ m.map Prod.fst
  · simpa [hk] using hnd
  · rw [if_neg hk]
    exact (List.perm_append_singleton k _).nodup_iff.mpr
      (List.nodup_cons.mpr ⟨hk, hnd⟩)

/-! ## Claim C3: pay_fare deducts exactly when the balance suffices -/

/-- Claim C3: for a known account, pay_fare returns true and decreases the
balance by exactly the amount when the balance is at least the amount, and
returns false leaving the whole state unchanged otherwise; concretely, with
balance 3 and fare 7/2 pay_fare fails and the balance stays 3, and after a
recharge of 1 pay_fare succeeds leaving balance 1/2. -/
theorem claim_C3_pay_fare (st : MutexState) (p : Nat) (b amount : ℚ)
    (hp : p ∈ st.card_locks) (hb : lookupA st.card_balances p = some b) :
    (amount ≤ b →
      pay_fare st p amount =
        (true, { st with card_balances := insertA st.card_balances p (b - amount) }) ∧
      lookupA (pay_fare st p amount).2.card_balances p = some (b - amount)) ∧
    (¬ amount ≤ b → pay_fare st p amount = (false, st)) ∧
    pay_fare mutexDemo 1 (7/2) = (false, mutexDemo) ∧
    (pay_fare (recharge_card mutexDemo 1 1).2 1 (7/2)).1 = true ∧
    lookupA (pay_fare (recharge_card mutexDemo 1 1).2 1 (7/2)).2.card_balances 1 =
      some (1/2) := by
  refine ⟨fun h => ?_, fun h => ?_, ?_, ?_, ?_⟩
  · constructor
    · simp [pay_fare, hp, hb, if_pos h]
    · simp [pay_fare, hp, hb, if_pos h]
  · simp [pay_fare, hp, hb, if_neg h]
  · norm_num [pay_fare, mutexDemo, lookupA]
  · norm_num [pay_fare, recharge_card, mutexDemo, lookupA, insertA]
  · norm_num [pay_fare, recharge_card, mutexDemo, lookupA, insertA]

/-- Witness for claim C3 at the concrete account of mutexDemo with balance 3
and the fixed fare 7/2. -/
theorem claim_C3_pay_fare_witness :
    (1 ∈ mutexDemo.card_locks) ∧ lookupA mutexDemo.card_balances 1 = some 3 ∧
    (¬ (7/2 : ℚ) ≤ 3 → pay_fare mutexDemo 1 (7/2) = (false, mutexDemo)) :=
  ⟨by simp [mutexDemo], rfl,
    (claim_C3_pay_fare mutexDemo 1 3 (7/2) (by simp [mutexDemo]) rfl).2.1⟩

/-! ## Claim C6: buy_monthly deducts unconditionally -/

/-- Claim C6: for every known account, buy_monthly returns true and
decreases the balance by exactly 45 with no sufficient-funds check;
concretely from balance 3 the balance becomes -42, which is negative. -/
theorem claim_C6_buy_monthly (st : MutexState) (p : Nat) (b : ℚ)
    (hp : p ∈ st.card_locks) (hb : lookupA st.card_balances p = some b) :
    buy_monthly st p =
      (true, { st with card_balances := insertA st.card_balances p (b - 45) }) ∧
    lookupA (buy_monthly st p).2.card_balances p = some (b - 45) ∧
    lookupA (buy_monthly mutexDemo 1).2.card_balances 1 = some (-42) ∧
    ((-42 : ℚ) < 0) := by
  refine ⟨?_, ?_, ?_, by norm_num⟩
  · simp [buy_monthly, hp, hb]
  · simp [buy_monthly, hp, hb]
  · norm_num [buy_monthly, mutexDemo, lookupA, insertA]

/-- Witness for claim C6 at the concrete account of mutexDemo. -/
theorem claim_C6_buy_monthly_witness :
    (1 ∈ mutexDemo.card_locks) ∧ lookupA mutexDemo.card_balances 1 = some 3 ∧
    lookupA (buy_monthly mutexDemo 1).2.card_balances 1 = some (3 - 45) :=
  ⟨by simp [mutexDemo], rfl,
    (claim_C6_buy_monthly mutexDemo 1 3 (by simp [mutexDemo]) rfl).2.1⟩

/-! ## Claim C1: the polarity of start_alighting -/

/-- Claim C1 concerns a code bug: the source guard reads
`if not self.alighting_complete[bus_id]: return False`, so start_alighting
succeeds exactly when the alighting-complete flag is ALREADY true, the
inverse of the claimed polarity; on a freshly set-up manager, where the flag
is false, it always fails, and consequently it can never succeed in any run
that starts from initialization. -/
theorem claim_C1_start_alighting_polarity (st : CondState) (b s : Nat)
    (hb : b ∈ st.bus_conditions) :
    (lookupA st.alighting_complete b = some false →
      start_alighting st b s = (false, st)) ∧
    (lookupA st.alighting_complete b = some true →
      start_alighting st b s =
        (true, { st with alighting_complete := insertA st.alighting_complete b false })) ∧
    (1 ∈ condDemo.bus_conditions) ∧
    lookupA condDemo.alighting_complete 1 = some false ∧
    start_alighting condDemo 1 3 = (false, condDemo) := by
  refine ⟨fun h => ?_, fun h => ?_, by decide, by decide, by decide⟩
  · simp [start_alighting, hb, h]
  · simp [start_alighting, hb, h]

/-- Witness for claim C1 at the freshly set-up manager condDemo. -/
theorem claim_C1_start_alighting_polarity_witness :
    (1 ∈ condDemo.bus_conditions) ∧
    (lookupA condDemo.alighting_complete 1 = some false →
      start_alighting condDemo 1 3 = (false, condDemo)) :=
  ⟨by decide, (claim_C1_start_alighting_polarity condDemo 1 3 (by decide)).1⟩

/-! ## Claim C4: transfer keying -/

/-- Claim C4: start_transfer fails without mutation whenever a transfer for
the passenger is pending (and the pending map keeps unique passenger keys,
so at most one pending transfer per passenger exists); complete_transfer
fails without mutation when no pending transfer exists or the recorded pair
differs from (from, to), and with a matching pending pair on known buses it
removes the entry and returns true. -/
theorem claim_C4_transfer_keying (st : CondState) (p f t : Nat) (pr : Nat × Nat) :
    (lookupA st.transfers_in_progress p = some pr →
      start_transfer st p f t = (false, st)) ∧
    ((st.transfers_in_progress.map Prod.fst).Nodup →
      (((start_transfer st p f t).2.transfers_in_progress).map Prod.fst).Nodup) ∧
    (lookupA st.transfers_in_progress p = none →
      complete_transfer st p f t = (false, st)) ∧
    (lookupA st.transfers_in_progress p = some pr → pr ≠ (f, t) →
      complete_transfer st p f t = (false, st)) ∧
    (lookupA st.transfers_in_progress p = some (f, t) →
      f ∈ st.bus_conditions → t ∈ st.bus_conditions →
      complete_transfer st p f t =
        (true, { st with transfers_in_progress := eraseA st.transfers_in_progress p }) ∧
      ((st.transfers_in_progress.map Prod.fst).Nodup →
        lookupA (complete_transfer st p f t).2.transfers_in_progress p = none)) := by
  refine ⟨fun h => ?_, fun hnd => ?_, fun h => ?_, fun h hne => ?_, fun h hf ht => ?_⟩
  · by_cases hb : f ∈ st.bus_conditions ∧ t ∈ st.bus_conditions
    · simp [start_transfer, hb, h]
    · simp [start_transfer, hb]
  · by_cases hb : f ∈ st.bus_conditions ∧ t ∈ st.bus_conditions
    · cases hl : lookupA st.transfers_in_progress p with
      | some pr2 => simpa [start_transfer, hb, hl] using hnd
      | none =>
          simp only [start_transfer, if_pos hb, hl]
          exact insertA_keys_nodup _ _ _ hnd
    · simpa [start_transfer, hb] using hnd
  · by_cases hb : f ∈ st.bus_conditions ∧ t ∈ st.bus_conditions
    · simp [complete_transfer, hb, h]
    · simp [complete_transfer, hb]
  · by_cases hb : f ∈ st.bus_conditions ∧ t ∈ st.bus_conditions
    · simp [complete_transfer, hb, h, hne]
    · simp [complete_transfer, hb]
  · have hb : f ∈ st.bus_conditions ∧ t ∈ st.bus_conditions := ⟨hf, ht⟩
    constructor
    · simp [complete_transfer, hb, h]
    · intro hnd
      simp only [complete_transfer, if_pos hb, h, if_pos rfl]
      exact lookupA_eraseA_self _ _ hnd

/-- Witness for claim C4 at condDemoT, where passenger 5 has the pending
pair (1, 2) on the known buses 1 and 2. -/
theorem claim_C4_transfer_keying_witness :
    (lookupA condDemoT.transfers_in_progress 5 = some (1, 2)) ∧
    (1 ∈ condDemoT.bus_conditions) ∧ (2 ∈ condDemoT.bus_conditions) ∧
    complete_transfer condDemoT 5 1 2 =
      (true, { condDemoT with
        transfers_in_progress := eraseA condDemoT.transfers_in_progress 5 }) :=
  ⟨by decide, by decide, by decide,
    ((claim_C4_transfer_keying condDemoT 5 1 2 (1, 2)).2.2.2.2 (by decide)
      (by decide) (by decide)).1⟩

/-! ## Claim C5: idempotence of the complete mutations -/

/-- Claim C5 counterexample: on condDemoT the first complete_transfer
returns true, and the identical second call returns false, so the
completion calls are not all idempotent in their result as the claim
states. -/
theorem claim_C5_counterexample :
    (complete_transfer condDemoT 5 1 2).1 = true ∧
    (complete_transfer (complete_transfer condDemoT 5 1 2).2 5 1 2).1 = false := by
  decide

/-- Claim C5 amended: complete_boarding and complete_alighting are
idempotent, a repeated call returns the same result and leaves the state
unchanged; complete_transfer is not: after a successful completion the
identical second call leaves the state unchanged but returns false, because
the first call removed the pending entry. -/
theorem claim_C5_complete_idempotent (st : CondState) (b p f t : Nat)
    (hnd : (st.transfers_in_progress.map Prod.fst).Nodup) :
    complete_boarding (complete_boarding st b).2 b = complete_boarding st b ∧
    complete_alighting (complete_alighting st b).2 b = complete_alighting st b ∧
    ((complete_transfer st p f t).1 = true →
      complete_transfer (complete_transfer st p f t).2 p f t =
        (false, (complete_transfer st p f t).2)) := by
  refine ⟨?_, ?_, fun h => ?_⟩
  · by_cases hb : b ∈ st.bus_conditions
    · simp [complete_boarding, hb, insertA_insertA_self]
    · simp [complete_boarding, hb]
  · by_cases hb : b ∈ st.bus_conditions
    · simp [complete_alighting, hb, insertA_insertA_self]
    · simp [complete_alighting, hb]
  · by_cases hb : f ∈ st.bus_conditions ∧ t ∈ st.bus_conditions
    · cases hl : lookupA st.transfers_in_progress p with
      | none => simp [complete_transfer, hb, hl] at h
      | some pr =>
          by_cases hpr : pr = (f, t)
          · subst hpr
            have hnone : lookupA (eraseA st.transfers_in_progress p) p = none :=
              lookupA_eraseA_self _ _ hnd
            simp [complete_transfer, hb, hl, hnone]
          · simp [complete_transfer, hb, hl, hpr] at h
    · simp [complete_transfer, hb] at h

/-- Witness for the amended claim C5 at condDemoT. -/
theorem claim_C5_complete_idempotent_witness :
    ((condDemoT.transfers_in_progress.map Prod.fst).Nodup) ∧
    ((complete_transfer condDemoT 5 1 2).1 = true →
      complete_transfer (complete_transfer condDemoT 5 1 2).2 5 1 2 =
        (false, (complete_transfer condDemoT 5 1 2).2)) :=
  ⟨by decide, (claim_C5_complete_idempotent condDemoT 1 5 1 2 (by decide)).2.2⟩

/-! ## Claim C9: cleanup after a successful setup raises -/

theorem foldl_threads_invar {β : Type} (f : CondState → β → CondState)
    (hf : ∀ s x, (f s x).threads = s.threads) :
    ∀ (l : List β) (s : CondState), (l.foldl f s).threads = s.threads := by
  intro l
  induction l with
  | nil => intro s; rfl
  | cons hd tl ih =>
      intro s
      rw [List.foldl_cons, ih, hf]

theorem condSetup_threads (st : CondState) (sd : Seed) :
    (condSetup st (some sd)).2.threads = st.threads := by
  have h1 : ∀ (l : List Nat) (s : CondState),
      (l.foldl (fun s sid =>
        { s with stop_conditions := insertKey s.stop_conditions sid,
                 bus_at_stop := insertA s.bus_at_stop sid [] }) s).threads = s.threads :=
    foldl_threads_invar _ (fun s x => rfl)
  have h2 : ∀ (l : List Nat) (s : CondState),
      (l.foldl (fun s bid =>
        { s with bus_conditions := insertKey s.bus_conditions bid,
                 boarding_complete := insertA s.boarding_complete bid false,
                 alighting_complete := insertA s.alighting_complete bid false }) s).threads =
        s.threads :=
    foldl_threads_invar _ (fun s x => rfl)
  simp only [condSetup]
  rw [h2, h2, h1]

/-- Claim C9 concerns a code bug: after a successful setup with any seed,
cleanup clears every coordination map, but then raises AttributeError,
because it iterates self.threads and that attribute is only ever assigned
by run_scenarios. The second component of condCleanup records the raised
exception. -/
theorem claim_C9_cleanup_attribute_error (bus_ids stop_ids : List Nat) :
    (condSetup condInit (some ⟨bus_ids, stop_ids⟩)).1 = true ∧
    (condCleanup (condSetup condInit (some ⟨bus_ids, stop_ids⟩)).2).2 = true ∧
    (condCleanup (condSetup condInit (some ⟨bus_ids, stop_ids⟩)).2).1.stop_conditions = [] ∧
    (condCleanup (condSetup condInit (some ⟨bus_ids, stop_ids⟩)).2).1.bus_conditions = [] ∧
    (condCleanup (condSetup condInit (some ⟨bus_ids, stop_ids⟩)).2).1.bus_at_stop = [] ∧
    (condCleanup (condSetup condInit (some ⟨bus_ids, stop_ids⟩)).2).1.boarding_complete = [] ∧
    (condCleanup (condSetup condInit (some ⟨bus_ids, stop_ids⟩)).2).1.alighting_complete = [] ∧
    (condCleanup (condSetup condInit (some ⟨bus_ids, stop_ids⟩)).2).1.transfers_in_progress = [] := by
  have ht : (condSetup condInit (some ⟨bus_ids, stop_ids⟩)).2.threads = none := by
    rw [condSetup_threads]
    rfl
  refine ⟨rfl, ?_, ?_, ?_, ?_, ?_, ?_, ?_⟩ <;> simp [condCleanup, ht]

/-! ## Claim C10: boarding completion is permanent -/

theorem boardingLocked_start_boarding (st : CondState) (b s : Nat)
    (h : BoardingLocked st b) : (start_boarding st b s).1 = false := by
  rcases h with h | h
  · simp [start_boarding, h]
  · by_cases hb : b ∈ st.bus_conditions
    · simp [start_boarding, hb, h]
    · simp [start_boarding, hb]

theorem boardingLocked_applyOp (st : CondState) (b : Nat) (op : CondOp)
    (h : BoardingLocked st b) : BoardingLocked (applyOp st op) b := by
  cases op with
  | arrival b' s' =>
      by_cases hc : s' ∈ st.stop_conditions
      · simp only [applyOp, notify_bus_arrival, if_pos hc]; exact h
      · simp only [applyOp, notify_bus_arrival, if_neg hc]; exact h
  | departure b' s' =>
      by_cases hc : s' ∈ st.stop_conditions
      · simp only [applyOp, notify_bus_departure, if_pos hc]; exact h
      · simp only [applyOp, notify_bus_departure, if_neg hc]; exact h
  | startBoard b' s' =>
      by_cases hb' : b' ∈ st.bus_conditions
      · by_cases hf : (lookupA st.boarding_complete b').getD false
        · simp only [applyOp, start_boarding, if_pos hb', if_pos hf]; exact h
        · simp only [applyOp, start_boarding, if_pos hb', if_neg hf]
          rcases h with h | h
          · exact Or.inl h
          · refine Or.inr ?_
            have hne : b' ≠ b := by
              intro hEq
              subst hEq
              rw [h] at hf
              simp at hf
            rw [lookupA_insertA_ne _ _ _ _ hne]
            exact h
      · simp only [applyOp, start_boarding, if_neg hb']; exact h
  | completeBoard b' =>
      by_cases hb' : b' ∈ st.bus_conditions
      · simp only [applyOp, complete_boarding, if_pos hb']
        rcases h with h | h
        · exact Or.inl h
        · refine Or.inr ?_
          by_cases hne : b' = b
          · subst hne
            exact lookupA_insertA_self _ _ _
          · rw [lookupA_insertA_ne _ _ _ _ hne]
            exact h
      · simp only [applyOp, complete_boarding, if_neg hb']; exact h
  | startAlight b' s' =>
      by_cases hb' : b' ∈ st.bus_conditions
      · by_cases hf : (lookupA st.alighting_complete b').getD false
        · have hc : ¬ ((!(lookupA st.alighting_complete b').getD false) = true) := by
            simp [hf]
          simp only [applyOp, start_alighting, if_pos hb', if_neg hc]
          exact h
        · have hc : (!(lookupA st.alighting_complete b').getD false) = true := by
            simp [hf]
          simp only [applyOp, start_alighting, if_pos hb', if_pos hc]
          exact h
      · simp only [applyOp, start_alighting, if_neg hb']; exact h
  | completeAlight b' =>
      by_cases hb' : b' ∈ st.bus_conditions
      · simp only [applyOp, complete_alighting, if_pos hb']; exact h
      · simp only [applyOp, complete_alighting, if_neg hb']; exact h
  | startTrans p f t =>
      by_cases hb' : f ∈ st.bus_conditions ∧ t ∈ st.bus_conditions
      · cases hl : lookupA st.transfers_in_progress p with
        | some pr => simp only [applyOp, start_transfer, if_pos hb', hl]; exact h
        | none => simp only [applyOp, start_transfer, if_pos hb', hl]; exact h
      · simp only [applyOp, start_transfer, if_neg hb']; exact h
  | completeTrans p f t =>
      by_cases hb' : f ∈ st.bus_conditions ∧ t ∈ st.bus_conditions
      · cases hl : lookupA st.transfers_in_progress p with
        | some pr =>
            by_cases hpr : pr = (f, t)
            · simp only [applyOp, complete_transfer, if_pos hb', hl, if_pos hpr]
              exact h
            · simp only [applyOp, complete_transfer, if_pos hb', hl, if_neg hpr]
              exact h
        | none => simp only [applyOp, complete_transfer, if_pos hb', hl]; exact h
      · simp only [applyOp, complete_transfer, if_neg hb']; exact h
  | clean =>
      refine Or.inl ?_
      cases ht : st.threads <;> simp [applyOp, condCleanup, ht]

theorem boardingLocked_applyOps (st : CondState) (b : Nat) (ops : List CondOp)
    (h : BoardingLocked st b) : BoardingLocked (applyOps st ops) b := by
  induction ops generalizing st with
  | nil => exact h
  | cons op rest ih => exact ih _ (boardingLocked_applyOp st b op h)

/-- Claim C10: once complete_boarding succeeds for a bus, no sequence of
manager operations ever brings the bus back to a state where start_boarding
succeeds: the boarding-complete flag stays true until the bus itself is
dropped from the maps by cleanup, and start_boarding returns false in either
case. -/
theorem claim_C10_boarding_permanent (st : CondState) (b : Nat)
    (h : (complete_boarding st b).1 = true) (ops : List CondOp) (s : Nat) :
    BoardingLocked (applyOps (complete_boarding st b).2 ops) b ∧
    (start_boarding (applyOps (complete_boarding st b).2 ops) b s).1 = false := by
  have hb : b ∈ st.bus_conditions := by
    by_contra hb
    simp [complete_boarding, hb] at h
  have h0 : BoardingLocked (complete_boarding st b).2 b := by
    refine Or.inr ?_
    simp [complete_boarding, hb]
  have h1 := boardingLocked_applyOps _ b ops h0
  exact ⟨h1, boardingLocked_start_boarding _ b s h1⟩

/-- Witness for claim C10 at condDemo: complete boarding of bus 1, run a
few further operations, and observe that start_boarding still fails. -/
theorem claim_C10_boarding_permanent_witness :
    (complete_boarding condDemo 1).1 = true ∧
    (start_boarding
      (applyOps (complete_boarding condDemo 1).2
        [CondOp.startBoard 1 3, CondOp.arrival 1 3, CondOp.completeAlight 1])
      1 3).1 = false :=
  ⟨by decide,
    (claim_C10_boarding_permanent condDemo 1 (by decide)
      [CondOp.startBoard 1 3, CondOp.arrival 1 3, CondOp.completeAlight 1] 3).2⟩

/-! ## Claim C2: the capacity semaphore bounds successful boards -/

theorem board_passenger_succ (st : SemState) (bus p c : Nat)
    (h : lookupA st.bus_capacity_semaphores bus = some c) (hc : 0 < c) :
    (board_passenger st bus p).1 = true ∧
    lookupA (board_passenger st bus p).2.bus_capacity_semaphores bus = some (c - 1) := by
  have hstep : board_passenger st bus p = (true, { st with bus_capacity_semaphores := insertA st.bus_capacity_semaphores bus (c - 1) }) := by
    simp [board_passenger, h, hc]
  rw [hstep]
  exact ⟨rfl, lookupA_insertA_self _ _ _⟩

theorem board_passenger_fail (st : SemState) (bus p : Nat)
    (h : lookupA st.bus_capacity_semaphores bus = some 0) :
    board_passenger st bus p = (false, st) := by
  simp [board_passenger, h]

theorem alight_passenger_succ (st : SemState) (bus p c : Nat)
    (h : lookupA st.bus_capacity_semaphores bus = some c) :
    (alight_passenger st bus p).1 = true ∧
    lookupA (alight_passenger st bus p).2.bus_capacity_semaphores bus = some (c + 1) := by
  have hstep : alight_passenger st bus p = (true, { st with bus_capacity_semaphores := insertA st.bus_capacity_semaphores bus (c + 1) }) := by
    simp [alight_passenger, h]
  rw [hstep]
  exact ⟨rfl, lookupA_insertA_self _ _ _⟩

theorem runEvents_counter (bus : Nat) (evs : List SemEvent) :
    ∀ (st : SemState) (c0 : Nat),
    lookupA st.bus_capacity_semaphores bus = some c0 →
    ∃ c, lookupA (runEvents bus evs st).1.bus_capacity_semaphores bus = some c ∧
      c + (runEvents bus evs st).2.1 = c0 + (runEvents bus evs st).2.2 := by
  induction evs with
  | nil =>
      intro st c0 h
      exact ⟨c0, h, rfl⟩
  | cons e rest ih =>
      intro st c0 h
      cases e with
      | board p =>
          by_cases hc : 0 < c0
          · obtain ⟨hfst, hl⟩ := board_passenger_succ st bus p c0 h hc
            obtain ⟨c, hcl, hceq⟩ := ih (board_passenger st bus p).2 (c0 - 1) hl
            refine ⟨c, ?_, ?_⟩
            · simpa only [runEvents] using hcl
            · simp only [runEvents, hfst, if_true]
              omega
          · have hc0 : c0 = 0 := by omega
            subst hc0
            have hstep := board_passenger_fail st bus p h
            obtain ⟨c, hcl, hceq⟩ := ih st 0 h
            refine ⟨c, ?_, ?_⟩
            · simpa only [runEvents, hstep] using hcl
            · simp only [runEvents, hstep, Bool.false_eq_true, if_false]
              omega
      | alight p =>
          obtain ⟨hfst, hl⟩ := alight_passenger_succ st bus p c0 h
          obtain ⟨c, hcl, hceq⟩ := ih (alight_passenger st bus p).2 (c0 + 1) hl
          refine ⟨c, ?_, ?_⟩
          · simpa only [runEvents] using hcl
          · simp only [runEvents, hfst, if_true]
            omega

theorem runEvents_replicate_board (bus p : Nat) (N : Nat) :
    ∀ (st : SemState) (c0 : Nat),
    lookupA st.bus_capacity_semaphores bus = some c0 → N ≤ c0 →
    (runEvents bus (List.replicate N (SemEvent.board p)) st).2.1 = N ∧
    (runEvents bus (List.replicate N (SemEvent.board p)) st).2.2 = 0 ∧
    lookupA (runEvents bus (List.replicate N (SemEvent.board p)) st).1.bus_capacity_semaphores
      bus = some (c0 - N) := by
  induction N with
  | zero =>
      intro st c0 h hN
      exact ⟨rfl, rfl, by simpa using h⟩
  | succ n ih =>
      intro st c0 h hN
      have hc : 0 < c0 := by omega
      obtain ⟨hfst, hl⟩ := board_passenger_succ st bus p c0 h hc
      obtain ⟨h1, h2, h3⟩ := ih (board_passenger st bus p).2 (c0 - 1) hl (by omega)
      refine ⟨?_, ?_, ?_⟩
      · simp only [List.replicate_succ, runEvents, hfst, if_true, h1]
        omega
      · simp only [List.replicate_succ, runEvents, h2]
      · simp only [List.replicate_succ, runEvents]
        rw [h3]
        congr 1
        omega

/-- Claim C2: on a bus whose capacity semaphore holds N, the number of
successful boards in any call sequence never exceeds N plus the number of
successful alights; after N boards from the initial state all N succeed, the
next board fails, and after exactly one alight exactly one further board
succeeds while the one after it fails again. -/
theorem claim_C2_capacity_bound (st : SemState) (bus p : Nat) (N : Nat)
    (evs : List SemEvent)
    (h : lookupA st.bus_capacity_semaphores bus = some N) :
    (runEvents bus evs st).2.1 ≤ N + (runEvents bus evs st).2.2 ∧
    (runEvents bus (List.replicate N (SemEvent.board p)) st).2.1 = N ∧
    (runEvents bus (List.replicate N (SemEvent.board p)) st).2.2 = 0 ∧
    (board_passenger (runEvents bus (List.replicate N (SemEvent.board p)) st).1 bus p).1 =
      false ∧
    (board_passenger
      (alight_passenger (runEvents bus (List.replicate N (SemEvent.board p)) st).1 bus p).2
      bus p).1 = true ∧
    (board_passenger
      (board_passenger
        (alight_passenger (runEvents bus (List.replicate N (SemEvent.board p)) st).1 bus p).2
        bus p).2 bus p).1 = false := by
  obtain ⟨c, hcl, hceq⟩ := runEvents_counter bus evs st N h
  obtain ⟨h1, h2, h3⟩ := runEvents_replicate_board bus p N st N h (le_refl N)
  have h3z : lookupA
      (runEvents bus (List.replicate N (SemEvent.board p)) st).1.bus_capacity_semaphores bus =
      some 0 := by
    rw [h3]
    congr 1
    omega
  obtain ⟨hA1, hA2⟩ :=
    alight_passenger_succ (runEvents bus (List.replicate N (SemEvent.board p)) st).1 bus p 0 h3z
  obtain ⟨hB1, hB2⟩ := board_passenger_succ
    (alight_passenger (runEvents bus (List.replicate N (SemEvent.board p)) st).1 bus p).2
    bus p 1 hA2 (by omega)
  refine ⟨by omega, h1, h2, ?_, hB1, ?_⟩
  · rw [board_passenger_fail _ bus p h3z]
  · rw [board_passenger_fail _ bus p hB2]

/-- Witness for claim C2 at the concrete manager semDemo where bus 1 has
capacity counter 2. -/
theorem claim_C2_capacity_bound_witness :
    lookupA semDemo.bus_capacity_semaphores 1 = some 2 ∧
    (runEvents 1 (List.replicate 2 (SemEvent.board 9)) semDemo).2.1 = 2 ∧
    (board_passenger (runEvents 1 (List.replicate 2 (SemEvent.board 9)) semDemo).1 1 9).1 =
      false :=
  ⟨rfl, (claim_C2_capacity_bound semDemo 1 9 2 [] rfl).2.1,
    (claim_C2_capacity_bound semDemo 1 9 2 [] rfl).2.2.2.1⟩

/-! ## Claim C8: timeout removes the bus from the queue exactly once -/

theorem bus_arrive_loop_sem_zero (bus stop : Nat) :
    ∀ (fuel : Nat) (st : SemState),
    lookupA st.stop_semaphores stop = some 0 →
    bus_arrive_loop st bus stop fuel = bus_arrive_loop st bus stop 0 := by
  intro fuel
  induction fuel with
  | zero =>
      intro st h
      rfl
  | succ n ih =>
      intro st h
      by_cases hq : ((lookupA st.stop_queues stop).getD []).head? = some bus
      · simp only [bus_arrive_loop, hq, if_pos, h]
        simpa using ih st h
      · simp only [bus_arrive_loop, if_neg hq]
        exact ih st h

/-- Claim C8: when bus_arrive_at_stop times out (here: the admission
semaphore stays at zero for the whole window), the call returns false and
the queue loses exactly one occurrence of the bus, the first one; on an
arbitrary queue content at the moment of the timeout branch, the removal
deletes the first occurrence when the bus is present and leaves the queue
unchanged when it is absent. -/
theorem claim_C8_timeout_once (st : SemState) (bus stop fuel : Nat) (q : List Nat)
    (hq : lookupA st.stop_queues stop = some q)
    (hsem : lookupA st.stop_semaphores stop = some 0) :
    (bus_arrive_at_stop st bus stop fuel).1 = false ∧
    lookupA (bus_arrive_at_stop st bus stop fuel).2.stop_queues stop =
      some ((q ++ [bus]).erase bus) ∧
    ((q ++ [bus]).erase bus).count bus = (q ++ [bus]).count bus - 1 ∧
    (∀ q2 : List Nat, timeout_remove q2 bus = q2.erase bus) ∧
    (∀ q2 : List Nat, bus ∉ q2 → timeout_remove q2 bus = q2) ∧
    (∀ a b2 : List Nat, bus ∉ a → (a ++ bus :: b2).erase bus = a ++ b2) := by
  have hrem : ∀ q2 : List Nat, timeout_remove q2 bus = q2.erase bus := by
    intro q2
    by_cases hm : bus ∈ q2
    · simp [timeout_remove, hm]
    · simp [timeout_remove, hm, List.erase_of_not_mem hm]
  have hst' : lookupA (queue_update st stop (q ++ [bus])).stop_semaphores stop = some 0 :=
    hsem
  have hql : lookupA (queue_update st stop (q ++ [bus])).stop_queues stop =
      some (q ++ [bus]) := lookupA_insertA_self _ _ _
  have hmain : bus_arrive_at_stop st bus stop fuel =
      (false, queue_update (queue_update st stop (q ++ [bus])) stop
        (timeout_remove (q ++ [bus]) bus)) := by
    have hsome : (lookupA st.stop_semaphores stop).isSome := by
      rw [hsem]
      rfl
    rw [bus_arrive_at_stop, if_pos hsome, hq]
    simp only [Option.getD_some]
    rw [bus_arrive_loop_sem_zero bus stop fuel _ hst']
    simp only [bus_arrive_loop, hql, Option.getD_some]
  refine ⟨?_, ?_, ?_, hrem, ?_, ?_⟩
  · rw [hmain]
  · rw [hmain, hrem]
    exact lookupA_insertA_self _ _ _
  · exact List.count_erase_self bus (q ++ [bus])
  · intro q2 hm
    simp [timeout_remove, hm]
  · intro a b2 ha
    rw [List.erase_append_right _ ha, List.erase_cons_head]

/-- Witness for claim C8 at semDemo: stop 4 has admission count 0 and an
empty queue; bus 1 arriving with any patience times out and the queue ends
empty again. -/
theorem claim_C8_timeout_once_witness :
    lookupA semDemo.stop_queues 4 = some [] ∧
    lookupA semDemo.stop_semaphores 4 = some 0 ∧
    (bus_arrive_at_stop semDemo 1 4 3).1 = false ∧
    lookupA (bus_arrive_at_stop semDemo 1 4 3).2.stop_queues 4 =
      some (([] ++ [1]).erase 1) :=
  ⟨rfl, rfl, (claim_C8_timeout_once semDemo 1 4 3 [] rfl rfl).1,
    (claim_C8_timeout_once semDemo 1 4 3 [] rfl rfl).2.1⟩

/-! ## Claim C7: board_passengers moves exactly the paying passengers -/

theorem pay_fare_fst (st : MutexState) (p : Nat) :
    (pay_fare st p (7/2)).1 = will_pay st p := by
  by_cases hp : p ∈ st.card_locks
  · cases hl : lookupA st.card_balances p with
    | none => simp [pay_fare, will_pay, hp, hl]
    | some b =>
        by_cases hb : (7/2 : ℚ) ≤ b
        · simp [pay_fare, will_pay, hp, hl, hb]
        · simp [pay_fare, will_pay, hp, hl, hb]
  · simp [pay_fare, will_pay, hp]

theorem pay_fare_false_snd (st : MutexState) (p : Nat) (a : ℚ)
    (h : (pay_fare st p a).1 = false) : (pay_fare st p a).2 = st := by
  by_cases hp : p ∈ st.card_locks
  · cases hl : lookupA st.card_balances p with
    | none => simp [pay_fare, hp, hl]
    | some b =>
        by_cases hb : a ≤ b
        · simp [pay_fare, hp, hl, hb] at h
        · simp [pay_fare, hp, hl, hb]
  · simp [pay_fare, hp]

theorem pay_fare_locks (st : MutexState) (p : Nat) (a : ℚ) :
    (pay_fare st p a).2.card_locks = st.card_locks := by
  by_cases hp : p ∈ st.card_locks
  · cases hl : lookupA st.card_balances p with
    | none => simp [pay_fare, hp, hl]
    | some b =>
        by_cases hb : a ≤ b
        · simp [pay_fare, hp, hl, hb]
        · simp [pay_fare, hp, hl, hb]
  · simp [pay_fare, hp]

theorem pay_fare_balance_ne (st : MutexState) (p q : Nat) (a : ℚ) (hq : q ≠ p) :
    lookupA (pay_fare st p a).2.card_balances q = lookupA st.card_balances q := by
  by_cases hp : p ∈ st.card_locks
  · cases hl : lookupA st.card_balances p with
    | none => simp [pay_fare, hp, hl]
    | some b =>
        by_cases hb : a ≤ b
        · simp only [pay_fare, if_pos hp, hl, if_pos hb]
          exact lookupA_insertA_ne _ _ _ _ (fun hEq => hq hEq.symm)
        · simp [pay_fare, hp, hl, hb]
  · simp [pay_fare, hp]

theorem will_pay_pay_fare_ne (st : MutexState) (p q : Nat) (a : ℚ) (hq : q ≠ p) :
    will_pay (pay_fare st p a).2 q = will_pay st q := by
  unfold will_pay
  rw [pay_fare_locks, pay_fare_balance_ne st p q a hq]

theorem list_any_congr {l : List Nat} {f g : Nat → Bool}
    (h : ∀ a ∈ l, f a = g a) : l.any f = l.any g := by
  induction l with
  | nil => rfl
  | cons x rest ih =>
      simp only [List.any_cons]
      rw [h x (List.mem_cons_self x rest), ih (fun a ha => h a (List.mem_cons_of_mem x ha))]

theorem foldl_erase_cons (p : Nat) :
    ∀ (xs acc : List Nat), (∀ x ∈ xs, x ≠ p) →
    xs.foldl (fun a x => a.erase x) (p :: acc) =
      p :: xs.foldl (fun a x => a.erase x) acc := by
  intro xs
  induction xs with
  | nil =>
      intro acc h
      rfl
  | cons x rest ih =>
      intro acc h
      have hx : x ≠ p := h x (List.mem_cons_self x rest)
      simp only [List.foldl_cons]
      rw [List.erase_cons_tail (by simp [hx.symm])]
      exact ih _ (fun y hy => h y (List.mem_cons_of_mem x hy))

theorem filter_foldl_erase (q : Nat → Bool) :
    ∀ (l : List Nat), l.Nodup →
    (l.filter q).foldl (fun acc x => acc.erase x) l =
      l.filter (fun x => !q x) := by
  intro l
  induction l with
  | nil =>
      intro h
      rfl
  | cons p rest ih =>
      intro h
      rw [List.nodup_cons] at h
      by_cases hq : q p
      · rw [List.filter_cons_of_pos hq, List.foldl_cons, List.erase_cons_head,
          ih h.2, List.filter_cons_of_neg (by simp [hq])]
      · rw [List.filter_cons_of_neg (by simpa using hq),
          List.filter_cons_of_pos (by simp [hq]),
          foldl_erase_cons p (rest.filter q) rest
            (fun x hx hEq => h.1 (hEq ▸ List.mem_of_mem_filter hx)),
          ih h.2]

theorem board_loop_spec (l : List Nat) :
    ∀ (st : MutexState) (sl bl : List Nat) (bo : Bool),
    l.Nodup →
    (board_loop l st sl bl bo).2.1 =
      (l.filter (fun p => will_pay st p)).foldl (fun acc x => acc.erase x) sl ∧
    (board_loop l st sl bl bo).2.2.1 = bl ++ l.filter (fun p => will_pay st p) ∧
    (board_loop l st sl bl bo).2.2.2 = (bo || l.any (fun p => will_pay st p)) := by
  induction l with
  | nil =>
      intro st sl bl bo h
      simp [board_loop]
  | cons p rest ih =>
      intro st sl bl bo h
      rw [List.nodup_cons] at h
      have hstable : ∀ x ∈ rest, will_pay (pay_fare st p (7/2)).2 x = will_pay st x :=
        fun x hx => will_pay_pay_fare_ne st p x _ (fun hEq => h.1 (hEq ▸ hx))
      have hfilter : rest.filter (fun x => will_pay (pay_fare st p (7/2)).2 x) =
          rest.filter (fun x => will_pay st x) := List.filter_congr hstable
      have hany : rest.any (fun x => will_pay (pay_fare st p (7/2)).2 x) =
          rest.any (fun x => will_pay st x) := list_any_congr hstable
      by_cases hw : will_pay st p
      · have hfst : (pay_fare st p (7/2)).1 = true := by
          rw [pay_fare_fst]
          exact hw
        obtain ⟨h1, h2, h3⟩ := ih (pay_fare st p (7/2)).2 (sl.erase p) (bl ++ [p]) true h.2
        refine ⟨?_, ?_, ?_⟩
        · simp only [board_loop, hfst, if_true, h1, hfilter,
            List.filter_cons_of_pos hw, List.foldl_cons]
        · simp only [board_loop, hfst, if_true, h2, hfilter,
            List.filter_cons_of_pos hw, List.append_assoc, List.singleton_append]
        · simp only [board_loop, hfst, if_true, h3, hany, List.any_cons, hw,
            Bool.true_or, Bool.or_true]
      · have hfst : (pay_fare st p (7/2)).1 = false := by
          rw [pay_fare_fst]
          simpa using hw
        have hsnd : (pay_fare st p (7/2)).2 = st := pay_fare_false_snd st p _ hfst
        obtain ⟨h1, h2, h3⟩ := ih st sl bl bo h.2
        refine ⟨?_, ?_, ?_⟩
        · simp only [board_loop, hfst, Bool.false_eq_true, if_false, hsnd, h1,
            List.filter_cons_of_neg (by simpa using hw)]
        · simp only [board_loop, hfst, Bool.false_eq_true, if_false, hsnd, h2,
            List.filter_cons_of_neg (by simpa using hw)]
        · simp only [board_loop, hfst, Bool.false_eq_true, if_false, hsnd, h3,
            List.any_cons, hw]
          simp [hw]

/-- Claim C7: with a known stop and distinct waiting passengers,
board_passengers rejects without moving anyone when the bus cannot accept
the waiting count; otherwise it iterates the pre-mutation snapshot, moves to
the bus exactly the passengers whose fare payment succeeds, leaves on the
stop exactly those whose payment fails, and returns true exactly when at
least one passenger boarded. -/
theorem claim_C7_board_passengers (st : MutexState) (stop : DStop) (bus : DBus)
    (hs : stop.sid ∈ st.stop_locks) (hnd : stop.passenger_list.Nodup) :
    (bus.can_accept_passengers stop.passenger_list.length = false →
      board_passengers st stop bus = (false, st, stop, bus)) ∧
    (bus.can_accept_passengers stop.passenger_list.length = true →
      (board_passengers st stop bus).2.2.1.passenger_list =
        stop.passenger_list.filter (fun p => !(will_pay st p)) ∧
      (board_passengers st stop bus).2.2.2.passenger_list =
        bus.passenger_list ++ stop.passenger_list.filter (fun p => will_pay st p) ∧
      ((board_passengers st stop bus).1 =
        stop.passenger_list.any (fun p => will_pay st p))) := by
  constructor
  · intro hno
    simp [board_passengers, hs, hno]
  · intro hyes
    obtain ⟨h1, h2, h3⟩ := board_loop_spec stop.passenger_list st stop.passenger_list
      bus.passenger_list false hnd
    refine ⟨?_, ?_, ?_⟩
    · simp only [board_passengers, if_pos hs, hyes, if_true, h1]
      exact filter_foldl_erase _ stop.passenger_list hnd
    · simp only [board_passengers, if_pos hs, hyes, if_true, h2]
    · simp only [board_passengers, if_pos hs, hyes, if_true, h3, Bool.false_or]

/-- Witness for claim C7 at mutexBoardDemo with stop 7 hosting passengers
1, 2, 3, and an empty bus of capacity 5. -/
theorem claim_C7_board_passengers_witness :
    ((7 : Nat) ∈ mutexBoardDemo.stop_locks) ∧
    ([1, 2, 3] : List Nat).Nodup ∧
    (DBus.mk 5 []).can_accept_passengers (DStop.mk 7 [1, 2, 3]).passenger_list.length =
      true ∧
    (board_passengers mutexBoardDemo (DStop.mk 7 [1, 2, 3]) (DBus.mk 5 [])).1 =
      (DStop.mk 7 [1, 2, 3]).passenger_list.any
        (fun p => will_pay mutexBoardDemo p) :=
  ⟨by simp [mutexBoardDemo], by simp, rfl,
    ((claim_C7_board_passengers mutexBoardDemo (DStop.mk 7 [1, 2, 3]) (DBus.mk 5 [])
      (by simp [mutexBoardDemo]) (by simp)).2 rfl).2.2⟩

end STS
